import Mathlib

/-!
Shallow embedding of the gesture-to-message engine of `src/SliderGesture.tsx`
(PLM-Interface): track geometry, dual-cursor tail-chase physics, snap-on-release,
sequence activation, and the throttled MQTT position stream.  Pixel positions,
velocities and durations are modelled as rationals; wall-clock timestamps
(`Date.now()`, milliseconds) as integers.
-/

namespace SliderGesture

/-- Topic of the control stream (`MQTT_TOPIC` in the source). -/
def MQTT_TOPIC : String := "zotac/pico/control"

/-- Topic of the fade stream (`MQTT_FADE_TOPIC` in the source). -/
def MQTT_FADE_TOPIC : String := "zotac/pico/fading"

/-- Throttle interval for the position stream, in milliseconds (`THROTTLE_MS`). -/
def THROTTLE_MS : ℤ := 50

/-- `PIXELS_PER_CM = 37.8` from the source. -/
def PIXELS_PER_CM : ℚ := 378 / 10

/-- `MAX_SPEED_PX_PER_S = PIXELS_PER_CM * 1` (tail speed) from `runTailAnimation`. -/
def MAX_SPEED_PX_PER_S : ℚ := PIXELS_PER_CM * 1

/-- The resting width of the slider head (`sliderWidth` / `restingWidth` = 30). -/
def sliderWidth : ℚ := 30

/-- Track geometry: `newDotPositions` from the layout effect.
`trackWidth = containerWidth - sliderWidth`;
`dots[i] = (trackWidth / 6) * i + sliderWidth / 2` for `i = 0..6`. -/
def newDotPositions (containerWidth : ℚ) : List ℚ :=
  let trackWidth := containerWidth - sliderWidth
  (List.range 7).map (fun i => (trackWidth / 6) * (i : ℚ) + sliderWidth / 2)

/-- `updateSliderProperties`: the visual element's width, kept in sync with the
logical head and tail (`Math.abs(h - t) + 30`). -/
def spanWidth (h t : ℚ) : ℚ := |h - t| + 30

/-- `updateSliderProperties`: the visual element's x offset
(`Math.min(h, t) - 15`). -/
def spanX (h t : ℚ) : ℚ := min h t - 15

/-- `Math.sign` of JavaScript on a rational. -/
def mathSign (q : ℚ) : ℚ := if 0 < q then 1 else if q < 0 then -1 else 0

/-- One step of the tail-chase simulation: the body of `frame` in
`runTailAnimation`, acting on `(tailX, tailVelocity)` for a given head position
`hx` and frame delta `deltaTime` (seconds).  The source computes
`easingFactor = 1 - Math.exp(-4 * deltaTime)`; since that value is
transcendental it is taken here as an explicit parameter, and the theorems
below hold for every value of it.
* `distance = hx - tx`; if `|distance| < 1` the velocity is reset to `0` and the
  position is left unchanged (deadband);
* otherwise `targetVelocity = sign(distance) * MAX_SPEED_PX_PER_S`,
  `v' = v + (targetVelocity - v) * easingFactor`,
  `newTailX = tx + v' * deltaTime`, and if the motion direction would carry the
  tail past the head, `newTailX` is clamped to `hx` and the velocity zeroed. -/
def frame (hx tx tailVelocity easingFactor deltaTime : ℚ) : ℚ × ℚ :=
  let distance := hx - tx
  let direction := mathSign distance
  if |distance| < 1 then
    (tx, 0)
  else
    let targetVelocity := direction * MAX_SPEED_PX_PER_S
    let v := tailVelocity + (targetVelocity - tailVelocity) * easingFactor
    let newTailX := tx + v * deltaTime
    let currentDirection := mathSign v
    if 0 < currentDirection ∧ hx < newTailX then (hx, 0)
    else if currentDirection < 0 ∧ newTailX < hx then (hx, 0)
    else (newTailX, v)

/-- JavaScript's `Number.prototype.toFixed(3)` for a non-negative rational:
round `q * 1000` to the nearest integer (ties toward the larger integer), then
print with exactly three digits after the decimal point. -/
def jsToFixed3 (q : ℚ) : String :=
  let n := (⌊q * 1000 + 1 / 2⌋).toNat
  toString (n / 1000) ++ "." ++
    (if n % 1000 < 10 then "00" ++ toString (n % 1000)
     else if n % 1000 < 100 then "0" ++ toString (n % 1000)
     else toString (n % 1000))

/-- Result of one call to `handleTailChange`: the updated
`lastPublishTime.current` and the message published to the fade topic, if any
(`none` when the call is throttled, the width is not positive, or the MQTT
client is not connected). -/
structure TailChangeResult where
  newLastPublishTime : ℤ
  emitted : Option (String × String)
  deriving Repr, DecidableEq

/-- `handleTailChange` from the throttled-publish effect: given the current
time `now = Date.now()`, the stored `lastPublishTime`, the container width, the
latest tail position and the connection status, either throttle (less than
`THROTTLE_MS` since the last gate pass) or record `now` and, when
`containerWidth > 0`, clamp `latestTailX / containerWidth` into `[0, 1]`,
format it with `toFixed(3)` and publish it to `MQTT_FADE_TOPIC` when
connected. -/
def handleTailChange (now lastPublishTime : ℤ) (containerWidth latestTailX : ℚ)
    (connected : Bool) : TailChangeResult :=
  if now - lastPublishTime < THROTTLE_MS then
    ⟨lastPublishTime, none⟩
  else
    if 0 < containerWidth then
      let normalizedPosition := max 0 (min 1 (latestTailX / containerWidth))
      let message := jsToFixed3 normalizedPosition
      if connected then ⟨now, some (MQTT_FADE_TOPIC, message)⟩
      else ⟨now, none⟩
    else ⟨now, none⟩

/-- Timestamps at which a position message is actually published, when a list
of timestamped tail changes is fed through `handleTailChange` starting from a
given `lastPublishTime`, with fixed container width and connection status. -/
def emissionTimes (lastPublishTime : ℤ) (containerWidth : ℚ) (connected : Bool) :
    List (ℤ × ℚ) → List ℤ
  | [] => []
  | (now, tx) :: rest =>
    let r := handleTailChange now lastPublishTime containerWidth tx connected
    match r.emitted with
    | some _ => now :: emissionTimes r.newLastPublishTime containerWidth connected rest
    | none => emissionTimes r.newLastPublishTime containerWidth connected rest

/-- One run of the initial-position effect: when the client is connected, the
container width is positive and `initialPositionPublished.current` is still
false, publish `(0.5).toFixed(3)` to the fade topic and latch the flag. -/
def initialPositionStep (connected : Bool) (containerWidth : ℚ)
    (initialPositionPublished : Bool) : Bool × Option String :=
  if connected ∧ 0 < containerWidth ∧ ¬initialPositionPublished then
    (true, some (jsToFixed3 (1 / 2)))
  else
    (initialPositionPublished, none)

/-- Messages published by successive runs of the initial-position effect, one
run per `(connected, containerWidth)` snapshot. -/
def runInitialPublishes (initialPositionPublished : Bool) :
    List (Bool × ℚ) → List String
  | [] => []
  | (conn, w) :: rest =>
    let r := initialPositionStep conn w initialPositionPublished
    match r.2 with
    | some m => m :: runInitialPublishes r.1 rest
    | none => runInitialPublishes r.1 rest

/-- `handlePan`: a no-op when the container width is falsy, otherwise the head
follows the cursor clamped to
`[restingWidth / 2, containerWidth - restingWidth / 2]`. -/
def handlePan (containerWidth currentX : ℚ) : Option ℚ :=
  if containerWidth = 0 then none
  else
    let restingWidth := sliderWidth
    some (max (restingWidth / 2) (min currentX (containerWidth - restingWidth / 2)))

/-- The reducer passed to `dotPositions.reduce` in `handlePanEnd`:
`(prev, curr) => Math.abs(curr - releaseX) < Math.abs(prev - releaseX) ? curr : prev`. -/
def closerTo (releaseX prev curr : ℚ) : ℚ :=
  if |curr - releaseX| < |prev - releaseX| then curr else prev

/-- `dotPositions.reduce(...)` from `handlePanEnd`: the running value keeps the
current element only when it is strictly closer to `releaseX`, so the first
element of the list attaining the minimum distance wins.  JavaScript's `reduce`
with no initial value starts from the first element and throws on an empty
array, hence the `Option`. -/
def closestDot (releaseX : ℚ) : List ℚ → Option ℚ
  | [] => none
  | d :: ds => some (ds.foldl (closerTo releaseX) d)

/-- The settle plan computed synchronously by `handlePanEnd`. -/
structure SettlePlan where
  closestDotX : ℚ
  tail_duration : ℚ
  head_duration : ℚ
  headEase : String
  tailEase : String
  deriving Repr, DecidableEq

/-- `handlePanEnd` (synchronous part): a no-op when the container width is
falsy; otherwise pick the stop closest to the release position of the head,
set the tail's travel duration to `distance / (37.8 px/s)` and the head's to
`max(3, tail_duration)`, with an ease-in-out head tween and a linear tail
tween. -/
def handlePanEnd (containerWidth : ℚ) (dotPositions : List ℚ)
    (releaseX tailPos : ℚ) : Option SettlePlan :=
  if containerWidth = 0 then none
  else
    match closestDot releaseX dotPositions with
    | none => none
    | some closestDotX =>
      let speedPxPerS := PIXELS_PER_CM * 1
      let distanceToTravel := |tailPos - closestDotX|
      let tail_duration := if 0 < distanceToTravel then distanceToTravel / speedPxPerS else 0
      let head_duration := max 3 tail_duration
      some ⟨closestDotX, tail_duration, head_duration, "easeInOut", "linear"⟩

/-- A sequence activation decided by the tail animation's `onComplete`
callback: the 0-based stop index, the control topic and message published, and
the delay in ms after which the stop's activation flag is cleared again. -/
structure SequenceActivation where
  dotIndex : ℕ
  topic : String
  message : String
  clearDelayMs : ℕ
  deriving Repr, DecidableEq

/-- The tail animation's `onComplete` callback: with the final head and tail
positions (the visual width being `spanWidth`), when the slider is within 1px
of its resting width and head and tail are within 1px of each other, find the
first stop within 1px of the head; if found, publish
`"Initialize Sequence {index+1}"` to the control topic, set that stop's
activation flag and clear it after 500 ms. -/
def onComplete (dotPositions : List ℚ) (finalHeadX finalTailX : ℚ) :
    Option SequenceActivation :=
  let sliderW := spanWidth finalHeadX finalTailX
  let restingWidth : ℚ := 30
  if |sliderW - restingWidth| < 1 ∧ |finalHeadX - finalTailX| < 1 then
    match dotPositions.findIdx? (fun dotPos => decide (|dotPos - finalHeadX| < 1)) with
    | some dotIndex =>
      some ⟨dotIndex, MQTT_TOPIC, "Initialize Sequence " ++ toString (dotIndex + 1), 500⟩
    | none => none
  else
    none


/-! ## Geometry and scenario facts -/

/-- C5: for every `width > handleSize` the seven stop positions follow
`stops[i] = (width - handleSize) / (stopCount - 1) * i + handleSize / 2`, form a
non-decreasing sequence, and start at `handleSize / 2` and end at
`width - handleSize / 2`. -/
theorem c5_stop_positions (width : ℚ) (h : 30 < width) :
    (∀ i : ℕ, i < 7 →
      (newDotPositions width).getD i 0 = (width - 30) / 6 * i + 30 / 2) ∧
    List.Chain' (fun a b => a ≤ b) (newDotPositions width) ∧
    (newDotPositions width).getD 0 0 = 30 / 2 ∧
    (newDotPositions width).getD 6 0 = width - 30 / 2 := by
  refine ⟨?_, ?_, ?_, ?_⟩
  · intro i hi
    interval_cases i <;> norm_num [newDotPositions, sliderWidth, List.range_succ]
  · norm_num [newDotPositions, sliderWidth, List.range_succ, List.chain'_cons]
    repeat' apply And.intro
    all_goals linarith
  · norm_num [newDotPositions, sliderWidth, List.range_succ]
  · norm_num [newDotPositions, sliderWidth, List.range_succ]
    ring

/-- Witness for `c5_stop_positions` at `width = 630`. -/
theorem c5_stop_positions_witness :
    (30 : ℚ) < 630 ∧ (newDotPositions 630).getD 0 0 = 30 / 2 :=
  ⟨by norm_num, (c5_stop_positions 630 (by norm_num)).2.2.1⟩

/-- C1: end-to-end settling scenario at container width 630 with handle size 30
and 7 stops: the stops sit at `{15, 115, 215, 315, 415, 515, 615}`; releasing
with the head at 301 and the tail at 200 selects closest stop 315, animates the
tail linearly over `115 / 37.8 ≈ 3.04 s` and the head over at least 3 s; on
tail-animation completion with head = tail = 315 (stop index 3) the message
`"Initialize Sequence 4"` is published to the control topic and stop 3's
activation flag is set and cleared again after 500 ms. -/
theorem c1_end_to_end_settling :
    newDotPositions 630 = [15, 115, 215, 315, 415, 515, 615] ∧
    (newDotPositions 630).getD 3 0 = 315 ∧
    (∃ plan : SettlePlan,
      handlePanEnd 630 (newDotPositions 630) 301 200 = some plan ∧
      plan.closestDotX = 315 ∧
      plan.tail_duration = 115 / (378 / 10) ∧
      plan.tailEase = "linear" ∧
      3 ≤ plan.head_duration) ∧
    onComplete (newDotPositions 630) 315 315 =
      some ⟨3, "zotac/pico/control", "Initialize Sequence 4", 500⟩ := by
  have hdots : newDotPositions 630 = [15, 115, 215, 315, 415, 515, 615] := by
    norm_num [newDotPositions, sliderWidth, List.range_succ]
  have hplan : handlePanEnd 630 (newDotPositions 630) 301 200 =
      some ⟨315, 575 / 189, 575 / 189, "easeInOut", "linear"⟩ := by
    rw [hdots]
    norm_num [handlePanEnd, closestDot, closerTo, PIXELS_PER_CM]
  refine ⟨hdots, by rw [hdots]; rfl, ⟨⟨315, 575 / 189, 575 / 189, "easeInOut", "linear"⟩,
    hplan, rfl, by norm_num, rfl, by norm_num⟩, ?_⟩
  rw [hdots]
  norm_num [onComplete, spanWidth, MQTT_TOPIC, List.findIdx?]
  rfl

/-- C9: with a zero container width, pointer-move handling, pointer-up snap
resolution, throttled position emission and the initial-position effect are all
no-ops, and no position message is emitted. -/
theorem c9_zero_width_no_ops (now lastPublishTime : ℤ) (latestTailX : ℚ)
    (connected : Bool) (currentX releaseX tailPos : ℚ) (dots : List ℚ)
    (published : Bool) :
    (handleTailChange now lastPublishTime 0 latestTailX connected).emitted = none ∧
    handlePan 0 currentX = none ∧
    handlePanEnd 0 dots releaseX tailPos = none ∧
    (initialPositionStep connected 0 published).2 = none := by
  refine ⟨?_, by simp [handlePan], by simp [handlePanEnd], by simp [initialPositionStep]⟩
  unfold handleTailChange
  split_ifs with h1 h2 h3 <;> first | rfl | norm_num at h2

/-- C10: a tail change that passes the 50 ms throttle gate always records the
current time as the new `lastPublishTime`, before the width and connection
checks; consequently a gate-passing change that emits nothing (width 0,
disconnected) still consumes the window, so a change 30 ms later emits nothing
even though the width is then positive and the client connected. -/
theorem c10_throttle_window_consumed (now lastPublishTime : ℤ)
    (containerWidth latestTailX : ℚ) (connected : Bool)
    (h : THROTTLE_MS ≤ now - lastPublishTime) :
    (handleTailChange now lastPublishTime containerWidth latestTailX
        connected).newLastPublishTime = now ∧
    handleTailChange 1000 0 0 100 false = ⟨1000, none⟩ ∧
    (handleTailChange 1030 1000 630 100 true).emitted = none := by
  refine ⟨?_, ?_, ?_⟩
  · unfold handleTailChange THROTTLE_MS
    rw [if_neg (by unfold THROTTLE_MS at h; omega)]
    split_ifs <;> rfl
  · norm_num [handleTailChange, THROTTLE_MS]
  · norm_num [handleTailChange, THROTTLE_MS]

/-- Witness for `c10_throttle_window_consumed` at `now = 1000`,
`lastPublishTime = 0`. -/
theorem c10_throttle_window_consumed_witness :
    THROTTLE_MS ≤ (1000 : ℤ) - 0 ∧
    (handleTailChange 1000 0 0 100 false).newLastPublishTime = 1000 :=
  ⟨by norm_num [THROTTLE_MS],
    (c10_throttle_window_consumed 1000 0 0 100 false
      (by norm_num [THROTTLE_MS])).1⟩

lemma mathSign_of_pos {q : ℚ} (h : 0 < q) : mathSign q = 1 := by
  simp [mathSign, h]

lemma mathSign_of_neg {q : ℚ} (h : q < 0) : mathSign q = -1 := by
  simp [mathSign, asymm h, h]

/-- C2: one integration step of the tail-chase simulation never moves the tail
strictly past the head: for every head position, tail position, velocity,
easing value and positive frame delta, the product
`(head - tail) * (head - tail')` stays non-negative and the sign of
`head - tail` is preserved or the tail lands exactly on the head. -/
theorem c2_tail_never_crosses_head (hx tx tailVelocity easingFactor deltaTime : ℚ)
    (hdt : 0 < deltaTime) :
    0 ≤ (hx - tx) * (hx - (frame hx tx tailVelocity easingFactor deltaTime).1) ∧
    (mathSign (hx - (frame hx tx tailVelocity easingFactor deltaTime).1) =
        mathSign (hx - tx) ∨
      (frame hx tx tailVelocity easingFactor deltaTime).1 = hx) := by
  unfold frame
  by_cases h1 : |hx - tx| < 1
  · simp only [if_pos h1]
    exact ⟨mul_self_nonneg _, Or.inl trivial⟩
  · simp only [if_neg h1]
    set v := tailVelocity +
      (mathSign (hx - tx) * MAX_SPEED_PX_PER_S - tailVelocity) * easingFactor with hv
    set newTailX := tx + v * deltaTime with hnew
    by_cases hc1 : 0 < mathSign v ∧ hx < newTailX
    · simp only [if_pos hc1]
      exact ⟨by simp, by simp⟩
    · simp only [if_neg hc1]
      by_cases hc2 : mathSign v < 0 ∧ newTailX < hx
      · simp only [if_pos hc2]
        exact ⟨by simp, by simp⟩
      · simp only [if_neg hc2]
        push_neg at hc1 hc2
        rcases le_abs.mp (not_lt.mp h1) with hA | hB
        · rcases lt_trichotomy v 0 with hvneg | hvzero | hvpos
          · exfalso
            have hs := mathSign_of_neg hvneg
            have hge : hx ≤ newTailX := hc2 (by rw [hs]; norm_num)
            have : v * deltaTime < 0 := mul_neg_of_neg_of_pos hvneg hdt
            rw [hnew] at hge
            linarith
          · have hnt : newTailX = tx := by rw [hnew, hvzero]; ring
            rw [hnt]
            exact ⟨mul_self_nonneg _, Or.inl rfl⟩
          · have hs := mathSign_of_pos hvpos
            have hle : newTailX ≤ hx := hc1 (by rw [hs]; norm_num)
            constructor
            · apply mul_nonneg <;> linarith
            · rcases eq_or_lt_of_le hle with heq | hlt
              · exact Or.inr heq
              · exact Or.inl (by rw [mathSign_of_pos (by linarith : (0:ℚ) < hx - newTailX),
                  mathSign_of_pos (by linarith : (0:ℚ) < hx - tx)])
        · rcases lt_trichotomy v 0 with hvneg | hvzero | hvpos
          · have hs := mathSign_of_neg hvneg
            have hge : hx ≤ newTailX := hc2 (by rw [hs]; norm_num)
            constructor
            · nlinarith [mul_nonneg (by linarith : (0:ℚ) ≤ tx - hx)
                (by linarith : (0:ℚ) ≤ newTailX - hx)]
            · rcases eq_or_lt_of_le hge with heq | hlt
              · exact Or.inr heq.symm
              · exact Or.inl (by rw [mathSign_of_neg (by linarith : hx - newTailX < 0),
                  mathSign_of_neg (by linarith : hx - tx < 0)])
          · have hnt : newTailX = tx := by rw [hnew, hvzero]; ring
            rw [hnt]
            exact ⟨mul_self_nonneg _, Or.inl rfl⟩
          · exfalso
            have hs := mathSign_of_pos hvpos
            have hle : newTailX ≤ hx := hc1 (by rw [hs]; norm_num)
            have : 0 < v * deltaTime := mul_pos hvpos hdt
            rw [hnew] at hle
            linarith

/-- Witness for `c2_tail_never_crosses_head` at
`hx = 100, tx = 0, v = 0, easing = 1/2, dt = 1`. -/
theorem c2_tail_never_crosses_head_witness :
    (0 : ℚ) < 1 ∧
    0 ≤ ((100 : ℚ) - 0) * (100 - (frame 100 0 0 (1 / 2) 1).1) :=
  ⟨by norm_num, (c2_tail_never_crosses_head 100 0 0 (1 / 2) 1 (by norm_num)).1⟩

lemma closerTo_foldl_spec (p : ℚ) (t : List ℚ) :
    ∀ acc : ℚ,
      |t.foldl (closerTo p) acc - p| ≤ |acc - p| ∧
      (∀ y ∈ t, |t.foldl (closerTo p) acc - p| ≤ |y - p|) ∧
      (t.foldl (closerTo p) acc = acc ∨
        ∃ l₁ l₂, t = l₁ ++ (t.foldl (closerTo p) acc) :: l₂ ∧
          |t.foldl (closerTo p) acc - p| < |acc - p| ∧
          ∀ y ∈ l₁, |t.foldl (closerTo p) acc - p| < |y - p|) := by
  induction t with
  | nil => intro acc; simp
  | cons c t ih =>
    intro acc
    rw [List.foldl_cons]
    by_cases hc : |c - p| < |acc - p|
    · have hacc : closerTo p acc c = c := if_pos hc
      rw [hacc]
      obtain ⟨ih1, ih2, ih3⟩ := ih c
      refine ⟨le_trans ih1 (le_of_lt hc), ?_, ?_⟩
      · intro y hy
        rcases List.mem_cons.mp hy with rfl | hy2
        · exact ih1
        · exact ih2 y hy2
      · rcases ih3 with heq | ⟨l₁, l₂, hdec, hlt, hstrict⟩
        · refine Or.inr ⟨[], t, ?_, ?_, by simp⟩
          · rw [heq]; rfl
          · rw [heq]; exact hc
        · refine Or.inr ⟨c :: l₁, l₂, ?_, lt_trans hlt hc, ?_⟩
          · rw [List.cons_append, ← hdec]
          · intro y hy
            rcases List.mem_cons.mp hy with rfl | hy2
            · exact hlt
            · exact hstrict y hy2
    · have hacc : closerTo p acc c = acc := if_neg hc
      rw [hacc]
      obtain ⟨ih1, ih2, ih3⟩ := ih acc
      push_neg at hc
      refine ⟨ih1, ?_, ?_⟩
      · intro y hy
        rcases List.mem_cons.mp hy with rfl | hy2
        · exact le_trans ih1 hc
        · exact ih2 y hy2
      · rcases ih3 with heq | ⟨l₁, l₂, hdec, hlt, hstrict⟩
        · exact Or.inl heq
        · refine Or.inr ⟨c :: l₁, l₂, by rw [List.cons_append, ← hdec], hlt, ?_⟩
          intro y hy
          rcases List.mem_cons.mp hy with rfl | hy2
          · exact lt_of_lt_of_le hlt hc
          · exact hstrict y hy2

/-- C4: for every release position and non-empty stop list, the snap target
chosen on pointer-up minimizes the distance to the release position, and every
stop listed before it is strictly farther away, so the lower-indexed stop wins
exact ties. -/
theorem c4_snap_to_closest_stop (p : ℚ) (stops : List ℚ) (hne : stops ≠ []) :
    ∃ res, closestDot p stops = some res ∧
      (∀ y ∈ stops, |res - p| ≤ |y - p|) ∧
      ∃ l₁ l₂, stops = l₁ ++ res :: l₂ ∧ ∀ y ∈ l₁, |res - p| < |y - p| := by
  match stops, hne with
  | d :: ds, _ =>
    obtain ⟨h1, h2, h3⟩ := closerTo_foldl_spec p ds d
    refine ⟨ds.foldl (closerTo p) d, rfl, ?_, ?_⟩
    · intro y hy
      rcases List.mem_cons.mp hy with rfl | hy2
      · exact h1
      · exact h2 y hy2
    · rcases h3 with heq | ⟨l₁, l₂, hdec, hlt, hstrict⟩
      · exact ⟨[], ds, by rw [heq]; rfl, by simp⟩
      · refine ⟨d :: l₁, l₂, by rw [List.cons_append, ← hdec], ?_⟩
        intro y hy
        rcases List.mem_cons.mp hy with rfl | hy2
        · exact hlt
        · exact hstrict y hy2

/-- Witness for `c4_snap_to_closest_stop` at `p = 301` on the seven stops of a
630-wide container. -/
theorem c4_snap_to_closest_stop_witness :
    [(15 : ℚ), 115, 215, 315, 415, 515, 615] ≠ [] ∧
    ∃ res, closestDot 301 [15, 115, 215, 315, 415, 515, 615] = some res ∧
      (∀ y ∈ [(15 : ℚ), 115, 215, 315, 415, 515, 615], |res - 301| ≤ |y - 301|) ∧
      ∃ l₁ l₂, [(15 : ℚ), 115, 215, 315, 415, 515, 615] = l₁ ++ res :: l₂ ∧
        ∀ y ∈ l₁, |res - 301| < |y - 301| :=
  ⟨by simp, c4_snap_to_closest_stop 301 [15, 115, 215, 315, 415, 515, 615] (by simp)⟩

/-- C3: on completion of the tail settle animation a sequence trigger is
emitted iff the final span length is within 1px of the handle size, head and
tail are within 1px of each other, and some stop lies within 1px of the final
head position; when emitted, the message is exactly
`"Initialize Sequence {index+1}"` for the first such stop's 0-based index, on
the control topic, and the stop's activation flag is cleared after 500 ms. -/
theorem c3_sequence_trigger_iff (dotPositions : List ℚ) (h t : ℚ) :
    ((onComplete dotPositions h t).isSome ↔
      (|spanWidth h t - 30| < 1 ∧ |h - t| < 1 ∧ ∃ d ∈ dotPositions, |d - h| < 1)) ∧
    (∀ act : SequenceActivation, onComplete dotPositions h t = some act →
      act.topic = MQTT_TOPIC ∧
      act.message = "Initialize Sequence " ++ toString (act.dotIndex + 1) ∧
      act.clearDelayMs = 500 ∧
      act.dotIndex < dotPositions.length ∧
      |dotPositions.getD act.dotIndex 0 - h| < 1 ∧
      ∀ j, j < act.dotIndex → ¬(|dotPositions.getD j 0 - h| < 1)) := by
  constructor
  · unfold onComplete
    by_cases hcond : |spanWidth h t - 30| < 1 ∧ |h - t| < 1
    · rw [if_pos hcond]
      rcases hfi : dotPositions.findIdx? (fun d => decide (|d - h| < 1)) with _ | i
      · simp only [hfi, Option.isSome_none, Bool.false_eq_true, false_iff]
        rintro ⟨-, -, d, hd, hdh⟩
        have hfalse := List.findIdx?_eq_none_iff.mp hfi d hd
        simp only [decide_eq_false_iff_not] at hfalse
        exact hfalse hdh
      · simp only [hfi, Option.isSome_some, true_iff]
        have h2 := List.findIdx?_eq_some_iff_findIdx_eq.mp hfi
        refine ⟨hcond.1, hcond.2, dotPositions.get ⟨i, h2.1⟩, List.get_mem _ _ _, ?_⟩
        have hp : (fun d => decide (|d - h| < 1))
            (dotPositions.get ⟨i, h2.1⟩) = true := by
          have hw : dotPositions.findIdx (fun d => decide (|d - h| < 1)) <
              dotPositions.length := by rw [h2.2]; exact h2.1
          have := @List.findIdx_getElem ℚ (fun d => decide (|d - h| < 1))
            dotPositions hw
          simp only [h2.2] at this
          simpa [List.get_eq_getElem] using this
        simpa using hp
    · rw [if_neg hcond]
      simp only [Option.isSome_none, Bool.false_eq_true, false_iff]
      rintro ⟨ha, hb, -⟩
      exact hcond ⟨ha, hb⟩
  · intro act hact
    unfold onComplete at hact
    by_cases hcond : |spanWidth h t - 30| < 1 ∧ |h - t| < 1
    · rw [if_pos hcond] at hact
      rcases hfi : dotPositions.findIdx? (fun d => decide (|d - h| < 1)) with _ | i
      · rw [hfi] at hact
        exact absurd hact (by simp)
      · rw [hfi] at hact
        have hacteq : act =
            ⟨i, MQTT_TOPIC, "Initialize Sequence " ++ toString (i + 1), 500⟩ :=
          (Option.some.inj hact).symm
        have h2 := List.findIdx?_eq_some_iff_findIdx_eq.mp hfi
        subst hacteq
        refine ⟨rfl, rfl, rfl, h2.1, ?_, ?_⟩
        · have hw : dotPositions.findIdx (fun d => decide (|d - h| < 1)) <
              dotPositions.length := by rw [h2.2]; exact h2.1
          have hp := @List.findIdx_getElem ℚ (fun d => decide (|d - h| < 1))
            dotPositions hw
          rw [List.getD_eq_getElem?_getD, List.getElem?_eq_getElem h2.1]
          simp only [Option.getD_some]
          simp only [h2.2] at hp
          simpa using hp
        · intro j hj
          have hjlen : j < dotPositions.length := lt_trans hj h2.1
          have hpf := @List.not_of_lt_findIdx ℚ (fun d => decide (|d - h| < 1))
            dotPositions j (by rw [h2.2]; exact hj)
          rw [List.getD_eq_getElem?_getD, List.getElem?_eq_getElem hjlen]
          simp only [Option.getD_some]
          simpa using hpf
    · rw [if_neg hcond] at hact
      exact absurd hact (by simp)

/-- Witness for `c3_sequence_trigger_iff` on the one-stop list `[15]` with
head and tail resting at 15. -/
theorem c3_sequence_trigger_iff_witness :
    (onComplete [(15 : ℚ)] 15 15).isSome ∧
    (⟨0, MQTT_TOPIC, "Initialize Sequence 1", 500⟩ : SequenceActivation).clearDelayMs
      = 500 :=
  ⟨(c3_sequence_trigger_iff [(15 : ℚ)] 15 15).1.mpr
      ⟨by norm_num [spanWidth], by norm_num, 15, by simp, by norm_num⟩,
    ((c3_sequence_trigger_iff [(15 : ℚ)] 15 15).2
      ⟨0, MQTT_TOPIC, "Initialize Sequence 1", 500⟩
      (by norm_num [onComplete, spanWidth, MQTT_TOPIC, List.findIdx?]; rfl)).2.2.1⟩

/-- C6: every tail change that passes the 50 ms throttle gate with a positive
container width and a connected client publishes, to the fade topic
`"zotac/pico/fading"`, the value `tail / containerWidth` clamped into `[0, 1]`
and formatted by `toFixed(3)` as a fixed three-decimal string whose numerator
is at most 1000 (so the string lies in `[0.000, 1.000]`). -/
theorem c6_position_message (now lastPublishTime : ℤ) (containerWidth latestTailX : ℚ)
    (hgate : THROTTLE_MS ≤ now - lastPublishTime) (hw : 0 < containerWidth) :
    ∃ p : ℚ, p = max 0 (min 1 (latestTailX / containerWidth)) ∧
      0 ≤ p ∧ p ≤ 1 ∧
      (handleTailChange now lastPublishTime containerWidth latestTailX true).emitted =
        some (MQTT_FADE_TOPIC, jsToFixed3 p) ∧
      MQTT_FADE_TOPIC = "zotac/pico/fading" ∧
      ∃ n : ℕ, n ≤ 1000 ∧
        jsToFixed3 p = toString (n / 1000) ++ "." ++
          (if n % 1000 < 10 then "00" ++ toString (n % 1000)
           else if n % 1000 < 100 then "0" ++ toString (n % 1000)
           else toString (n % 1000)) := by
  set p := max 0 (min 1 (latestTailX / containerWidth)) with hp
  have hp1 : p ≤ 1 := max_le (by norm_num) (min_le_left _ _)
  refine ⟨p, rfl, le_max_left _ _, hp1, ?_, rfl, ?_⟩
  · unfold handleTailChange
    rw [if_neg (not_lt.mpr hgate), if_pos hw]
    rfl
  · refine ⟨(⌊p * 1000 + 1 / 2⌋).toNat, ?_, rfl⟩
    have hle : p * 1000 + 1 / 2 ≤ 1000 + 1 / 2 := by nlinarith
    have hfl : ⌊p * 1000 + 1 / 2⌋ ≤ 1000 := by
      calc ⌊p * 1000 + 1 / 2⌋ ≤ ⌊(1000 : ℚ) + 1 / 2⌋ := Int.floor_le_floor hle
        _ = 1000 := by norm_num
    exact Int.toNat_le.mpr (by exact_mod_cast hfl)

/-- Witness for `c6_position_message` at `now = 100, lastPublishTime = 0,
width = 630, tail = 300`. -/
theorem c6_position_message_witness :
    THROTTLE_MS ≤ (100 : ℤ) - 0 ∧ (0 : ℚ) < 630 ∧
    ∃ p : ℚ, p = max 0 (min 1 ((300 : ℚ) / 630)) ∧
      0 ≤ p ∧ p ≤ 1 ∧
      (handleTailChange 100 0 630 300 true).emitted =
        some (MQTT_FADE_TOPIC, jsToFixed3 p) ∧
      MQTT_FADE_TOPIC = "zotac/pico/fading" ∧
      ∃ n : ℕ, n ≤ 1000 ∧
        jsToFixed3 p = toString (n / 1000) ++ "." ++
          (if n % 1000 < 10 then "00" ++ toString (n % 1000)
           else if n % 1000 < 100 then "0" ++ toString (n % 1000)
           else toString (n % 1000)) :=
  ⟨by norm_num [THROTTLE_MS], by norm_num,
    c6_position_message 100 0 630 300 (by norm_num [THROTTLE_MS]) (by norm_num)⟩

lemma emissionTimes_spec (containerWidth : ℚ) (connected : Bool) :
    ∀ (events : List (ℤ × ℚ)) (last : ℤ),
      (∀ e ∈ emissionTimes last containerWidth connected events,
        last + THROTTLE_MS ≤ e) ∧
      (emissionTimes last containerWidth connected events).Pairwise
        (fun x y => x + THROTTLE_MS ≤ y) := by
  have hT : THROTTLE_MS = 50 := rfl
  intro events
  induction events with
  | nil => intro last; simp [emissionTimes]
  | cons ev rest ih =>
    intro last
    obtain ⟨now, tx⟩ := ev
    by_cases hg : now - last < THROTTLE_MS
    · have hr : handleTailChange now last containerWidth tx connected = ⟨last, none⟩ := by
        unfold handleTailChange; rw [if_pos hg]
      simp only [emissionTimes, hr]
      exact ih last
    · push_neg at hg
      have hnl : (handleTailChange now last containerWidth tx
          connected).newLastPublishTime = now := by
        unfold handleTailChange; rw [if_neg (not_lt.mpr hg)]; split_ifs <;> rfl
      obtain ⟨ih1, ih2⟩ :=
        ih (handleTailChange now last containerWidth tx connected).newLastPublishTime
      have hstep : last + THROTTLE_MS ≤
          (handleTailChange now last containerWidth tx connected).newLastPublishTime := by
        rw [hnl]; omega
      rcases hem : (handleTailChange now last containerWidth tx connected).emitted
        with _ | m
      · simp only [emissionTimes, hem]
        refine ⟨fun e he => ?_, ih2⟩
        have := ih1 e he
        omega
      · simp only [emissionTimes, hem]
        refine ⟨?_, ?_⟩
        · intro e he
          rcases List.mem_cons.mp he with rfl | he2
          · omega
          · have := ih1 e he2
            omega
        · exact List.pairwise_cons.mpr ⟨fun e he => by have := ih1 e he; omega, ih2⟩

lemma pairwise_sep_window (a : ℤ) :
    ∀ l : List ℤ, l.Pairwise (fun x y => x + THROTTLE_MS ≤ y) →
      (l.filter (fun u => decide (a ≤ u ∧ u < a + THROTTLE_MS))).length ≤ 1 := by
  intro l
  induction l with
  | nil => simp
  | cons x t ih =>
    intro hp
    rw [List.pairwise_cons] at hp
    obtain ⟨hx, ht⟩ := hp
    rw [List.filter_cons]
    by_cases hpx : a ≤ x ∧ x < a + THROTTLE_MS
    · rw [if_pos (by simpa using hpx)]
      have hnil : t.filter (fun u => decide (a ≤ u ∧ u < a + THROTTLE_MS)) = [] := by
        rw [List.filter_eq_nil_iff]
        intro u hu
        have hxu := hx u hu
        simp only [decide_eq_true_eq, not_and, not_lt]
        intro
        linarith [hpx.1]
      rw [hnil]
      simp
    · rw [if_neg (by simpa using hpx)]
      exact ih ht

/-- C7: for every sequence of tail updates arriving strictly faster than 50 ms
apart, at most one position message is emitted per 50 ms window; in particular
1 second of updates every 10 ms yields at most 20 emitted position messages. -/
theorem c7_throttle_rate_limit (events : List (ℤ × ℚ)) (lastPublishTime : ℤ)
    (containerWidth : ℚ) (connected : Bool) (a : ℤ)
    (_hfast : events.Chain' (fun e f => f.1 - e.1 < THROTTLE_MS)) :
    ((emissionTimes lastPublishTime containerWidth connected events).filter
        (fun u => decide (a ≤ u ∧ u < a + THROTTLE_MS))).length ≤ 1 ∧
    (emissionTimes 0 630 true
        ((List.range 100).map (fun k => (100000 + 10 * (k : ℤ), (300 : ℚ))))).length
      ≤ 20 :=
  ⟨pairwise_sep_window a _
      (emissionTimes_spec containerWidth connected events lastPublishTime).2,
    by decide⟩

/-- Witness for `c7_throttle_rate_limit`: two updates 10 ms apart, window
starting at 0. -/
theorem c7_throttle_rate_limit_witness :
    List.Chain' (fun e f => f.1 - e.1 < THROTTLE_MS)
      [((100 : ℤ), (300 : ℚ)), (110, 300)] ∧
    ((emissionTimes 0 630 true [((100 : ℤ), (300 : ℚ)), (110, 300)]).filter
        (fun u => decide ((0 : ℤ) ≤ u ∧ u < 0 + THROTTLE_MS))).length ≤ 1 :=
  ⟨by simp [List.chain'_cons, THROTTLE_MS],
    (c7_throttle_rate_limit [((100 : ℤ), (300 : ℚ)), (110, 300)] 0 630 true 0
      (by simp [List.chain'_cons, THROTTLE_MS])).1⟩

lemma runInitialPublishes_latched : ∀ snaps : List (Bool × ℚ),
    runInitialPublishes true snaps = [] := by
  intro snaps
  induction snaps with
  | nil => rfl
  | cons s rest ih =>
    obtain ⟨conn, w⟩ := s
    simp only [runInitialPublishes, initialPositionStep]
    rw [if_neg (by simp)]
    exact ih

/-- The initial-position effect publishes `"0.500"` exactly at the first
snapshot that is connected with positive width, and never afterwards. -/
lemma runInitialPublishes_eq (snaps : List (Bool × ℚ)) :
    runInitialPublishes false snaps =
      if snaps.any (fun s => s.1 && decide (0 < s.2)) then ["0.500"] else [] := by
  have h500 : jsToFixed3 (1 / 2) = "0.500" := by norm_num [jsToFixed3]; rfl
  induction snaps with
  | nil => rfl
  | cons s rest ih =>
    obtain ⟨conn, w⟩ := s
    by_cases hgood : conn = true ∧ 0 < w
    · simp only [runInitialPublishes, initialPositionStep]
      rw [if_pos ⟨hgood.1, hgood.2, by simp⟩]
      simp only [runInitialPublishes_latched]
      rw [List.any_cons, if_pos (by simp [hgood.1, hgood.2])]
      rw [h500]
    · simp only [runInitialPublishes, initialPositionStep]
      rw [if_neg (by simpa using fun hc hw => hgood ⟨hc, hw⟩)]
      rw [List.any_cons, ih]
      have hcf : (conn && decide (0 < w)) = false := by
        by_cases hc : conn = true
        · subst hc
          simp only [Bool.true_and, decide_eq_false_iff_not]
          exact fun hw => hgood ⟨rfl, hw⟩
        · simp only [Bool.not_eq_true] at hc
          simp [hc]
      rw [hcf, Bool.false_or]

/-- C8 (counterexample): the claim as stated is false — at the very first
successful connection, observed while the container width is still 0, no
resting-value position message is emitted at all (the effect also requires a
positive width), so the emission count after the first successful connection
is 0, not 1. -/
theorem c8_initial_position_counterexample :
    [((true : Bool), (0 : ℚ))].any (fun s => s.1) = true ∧
    runInitialPublishes false [((true : Bool), (0 : ℚ))] = [] := by
  constructor
  · rfl
  · simp [runInitialPublishes, initialPositionStep]

/-- C8 (amended): the resting-value position message `"0.500"` is emitted
exactly once, at the first effect run at which the client is connected AND the
container width is positive; over any subsequent sequence of connections,
drags or width changes it is never emitted a second time (and not at all when
no connected-with-positive-width snapshot occurs). -/
theorem c8_initial_position_published_once (snaps : List (Bool × ℚ)) :
    (runInitialPublishes false snaps =
      if snaps.any (fun s => s.1 && decide (0 < s.2)) then ["0.500"] else []) ∧
    (runInitialPublishes false snaps).length ≤ 1 := by
  refine ⟨runInitialPublishes_eq snaps, ?_⟩
  rw [runInitialPublishes_eq snaps]
  split_ifs <;> simp

end SliderGesture
